import Mathlib

/-!
Verification of the rigid-flows density/oracle core (rigid_flows/system.py and
rigid_flows/density.py) against its natural-language specification.

The embedding uses exact arithmetic:
  - the OpenMM oracle world (system.py) is embedded over ℚ, so that concrete
    runs are decidable;
  - the analytic-density and cutoff world (density.py) is embedded over ℝ,
    since it involves sqrt / log / exp.

External collaborators (the OpenMM engine itself, tensorflow-probability
distributions, jax PRNG plumbing) are modelled as abstract function
parameters, exactly at the interface the source code queries them through.
-/

/-! ### Python-level runtime errors

Exceptions raised by the Python code (and by the external engine) are modelled
by one closed error type, so that fallible code can return Except values. -/

/-- Runtime errors of the embedded Python code. -/
inductive PyErr where
  /-- TypeError raised by functools: the first argument must be callable. -/
  | typeErrorNotCallable
  /-- ValueError with message Data not loaded. (density.py line 186) -/
  | dataNotLoaded
  /-- ValueError raised when a cutoff is configured without data (density.py line 207). -/
  | cutoffRequiresData
  /-- IndexError from indexing an empty array. -/
  | indexOutOfRange
  /-- An exception raised inside the external engine while evaluating one sample
  (system.py lines 109-124, the try block). The code distinguishes failures only
  by the exception object, modelled by a numeric code. -/
  | engineFailure (code : ℕ)
deriving DecidableEq

deriving instance DecidableEq for Except

/-! ### system.py: ErrorHandling and OpenMMEnergyModel -/

/-- system.py lines 41-44: the enumerated per-sample error policy. -/
inductive ErrorHandling where
  | RaiseException
  | LogWarning
  | Nothing
deriving DecidableEq

/-- A 3-vector of rationals (a row of a positions/forces array, or a box diagonal). -/
abbrev Vec3Q := Fin 3 → ℚ

/-- A 3x3 box-vector matrix, as set by context.setPeriodicBoxVectors. -/
abbrev BoxM := Fin 3 → Fin 3 → ℚ

/-- jnp.diag of a 3-vector (system.py line 153). -/
def diagQ (v : Vec3Q) : BoxM := fun i j => if i = j then v i else 0

/-- system.py lines 47-77: OpenMMEnergyModel.  The positions/forces arrays are
flattened to lists of coordinates (the numpy reshapes in the source only
re-group the same scalars, so they are identities in this embedding).

The fields model the state the constructor builds:
  - kbT: the thermal scale R * temperature (line 54);
  - vs_mask: the flattened virtual-site mask array, one entry per
    atom coordinate, 0 at virtual sites (multiplied into the forces, line 135);
  - error_handling: the construction-time policy (line 77);
  - engine: the external OpenMM context query, i.e. the whole try block body
    (setPositions; computeVirtualSites; getState with energy and forces, in
    engine-native units).  It is an opaque deterministic function of the
    positions pushed in and the currently set periodic box; a per-sample
    exception is an Except.error;
  - ctxBox: the periodic box vectors currently held by the context;
  - garbage: the contents of the uninitialized np.empty buffers allocated at
    lines 106-107 for sample i, read back if the sample fails. -/
structure OpenMMEnergyModel where
  kbT : ℚ
  vs_mask : List ℚ
  error_handling : ErrorHandling
  engine : List ℚ → BoxM → Except PyErr (ℚ × List ℚ)
  ctxBox : BoxM
  garbage : ℕ → ℚ × List ℚ

/-- forces[i] = force * self.model.vs_mask (system.py lines 134-136):
elementwise product of a force row with the mask. -/
def applyMask (mask force : List ℚ) : List ℚ :=
  List.zipWith (fun a b => a * b) force mask

/-- The per-sample loop of compute_energies_and_forces (system.py lines
104-136), iterating over the batch dimension with loop index i (used only to
address the per-iteration uninitialized buffers).

On engine success (the try block completes): energy and force are divided by
kbT (lines 114-123) and in the finally block the force row is multiplied by
the virtual-site mask (lines 133-136).

On engine failure the except handler at lines 124-131 dispatches on
self.error_handling (the construction-time field, NOT the resolved local
override - this is what line 125 of the source does):
  - RaiseException re-raises, aborting the batch;
  - LogWarning logs the exception and continues: the finally block then stores
    the uninitialized buffer contents, with the force buffer still multiplied
    by the mask;
  - Nothing continues the same way without logging.

The third component of the result collects the logged diagnostics. -/
def cefLoop (m : OpenMMEnergyModel) (effBox : BoxM) :
    ℕ → List (List ℚ) → Except PyErr (List ℚ × List (List ℚ) × List PyErr)
  | _, [] => Except.ok ([], [], [])
  | i, p :: rest =>
    match m.engine p effBox with
    | Except.ok (e, f) =>
      match cefLoop m effBox (i + 1) rest with
      | Except.ok (es, fs, ws) =>
          Except.ok ((e / m.kbT) :: es,
            applyMask m.vs_mask (f.map (fun y => y / m.kbT)) :: fs, ws)
      | Except.error err => Except.error err
    | Except.error msg =>
      match m.error_handling with
      | ErrorHandling.RaiseException => Except.error msg
      | ErrorHandling.LogWarning =>
        match cefLoop m effBox (i + 1) rest with
        | Except.ok (es, fs, ws) =>
            Except.ok ((m.garbage i).1 :: es,
              applyMask m.vs_mask (m.garbage i).2 :: fs, msg :: ws)
        | Except.error err => Except.error err
      | ErrorHandling.Nothing =>
        match cefLoop m effBox (i + 1) rest with
        | Except.ok (es, fs, ws) =>
            Except.ok ((m.garbage i).1 :: es,
              applyMask m.vs_mask (m.garbage i).2 :: fs, ws)
        | Except.error err => Except.error err

/-- OpenMMEnergyModel.compute_energies_and_forces (system.py lines 83-138).

Lines 94-95 resolve the per-call override against the construction-time
default into a local variable; the except handler at line 125 then matches on
self.error_handling, so the resolved local is never consulted (kept here,
unused, exactly as in the source).

Lines 97-99 set the periodic box once for the whole batch when a box is
passed; otherwise the box already held by the context is in effect.  The
input reshape at line 89 regroups the same scalars and is an identity here. -/
def computeEnergiesAndForces (m : OpenMMEnergyModel) (pos : List (List ℚ))
    (box : Option BoxM) (errorHandling : Option ErrorHandling) :
    Except PyErr (List ℚ × List (List ℚ) × List PyErr) :=
  let _resolvedPolicy := errorHandling.getD m.error_handling
  let effBox := box.getD m.ctxBox
  cefLoop m effBox 0 pos

/-! ### system.py: wrap_openmm_model (the differentiable bridge) -/

/-- compute_energy_and_forces from wrap_openmm_model (system.py lines
149-182), has_batch_dim = True path: the positions keep their leading batch
axis, the optional box 3-vector is turned into a diagonal matrix (line 153),
and the oracle is invoked with no per-call policy override.  The logging side
channel is internal to the oracle and not part of the bridge result. -/
def wrapComputeBatch (m : OpenMMEnergyModel) (pos : List (List ℚ))
    (box : Option Vec3Q) : Except PyErr (List ℚ × List (List ℚ)) :=
  match computeEnergiesAndForces m pos (box.map diagQ) none with
  | Except.ok (es, fs, _) => Except.ok (es, fs)
  | Except.error e => Except.error e

/-- compute_energy_and_forces, has_batch_dim = False path (system.py lines
155-157 and 178-180): the single configuration is wrapped into a batch of one
by expand_dims, and both outputs are squeezed back. -/
def wrapComputeSingle (m : OpenMMEnergyModel) (pos : List ℚ)
    (box : Option Vec3Q) : Except PyErr (ℚ × List ℚ) :=
  match computeEnergiesAndForces m [pos] (box.map diagQ) none with
  | Except.ok (es, fs, _) => Except.ok (es.headD 0, fs.headD [])
  | Except.error e => Except.error e

/-- eval_fwd (system.py lines 184-186): forward pass of the custom-vjp eval,
returning the energy as primal output and the force array as the residual.
Instantiated at has_batch_dim = False, the only instantiation reached from
density.py. -/
def evalFwd (m : OpenMMEnergyModel) (pos : List ℚ) (box : Option Vec3Q) :
    Except PyErr (ℚ × List ℚ) :=
  wrapComputeSingle m pos box

/-- eval_bwd (system.py lines 188-190): given the residual force and the
upstream cotangent g, return (-g * force,) elementwise.  The force residual
already has the shape of the positions input (reshaped at line 176). -/
def evalBwd (force : List ℚ) (g : ℚ) : List ℚ :=
  force.map (fun y => -(g * y))

/-- The vjp of eval as jax.custom_vjp composes it (system.py lines 192-196):
run eval_fwd, keep the force residual, and feed it with the upstream cotangent
to eval_bwd. -/
def evalVjp (m : OpenMMEnergyModel) (pos : List ℚ) (box : Option Vec3Q)
    (g : ℚ) : Except PyErr (List ℚ) :=
  (evalFwd m pos box).map (fun r => evalBwd r.2 g)

/-- wrap_openmm_model (system.py lines 148-198) returns the PAIR
(eval, compute_energy_and_forces) - line 198 of the source.  The first
component is the custom-vjp eval (energy only), the second the raw
energy-and-forces function; both shown here in their single-configuration
instantiation. -/
def wrapOpenmmModel (m : OpenMMEnergyModel) :
    (List ℚ → Option Vec3Q → Except PyErr ℚ) ×
    (List ℚ → Option Vec3Q → Except PyErr (ℚ × List ℚ)) :=
  (fun pos box => (wrapComputeSingle m pos box).map (fun r => r.1),
   wrapComputeSingle m)

/-- The result one sample contributes on engine success: energy divided by
kbT. -/
def perConfigEnergy (m : OpenMMEnergyModel) (effBox : BoxM) (c : List ℚ) : ℚ :=
  match m.engine c effBox with
  | Except.ok (e, _) => e / m.kbT
  | Except.error _ => 0

/-- The result one sample contributes on engine success: force divided by kbT,
then multiplied by the virtual-site mask. -/
def perConfigForce (m : OpenMMEnergyModel) (effBox : BoxM) (c : List ℚ) :
    List ℚ :=
  match m.engine c effBox with
  | Except.ok (_, f) => applyMask m.vs_mask (f.map (fun y => y / m.kbT))
  | Except.error _ => []

/-! ### Concrete oracle instances used by the closed theorems -/

/-- Oracle whose engine fails exactly on the configuration [9,9,9], built with
the silent construction-time policy. -/
def mC1 : OpenMMEnergyModel :=
  { kbT := 1
    vs_mask := [1, 1, 1]
    error_handling := ErrorHandling.Nothing
    engine := fun p _ =>
      if p = [9, 9, 9] then Except.error (PyErr.engineFailure 0)
      else Except.ok (1, [0, 0, 0])
    ctxBox := fun _ _ => 0
    garbage := fun _ => (7, [7, 7, 7]) }

/-- Oracle used by the bridge-gradient witness. -/
def mC5 : OpenMMEnergyModel :=
  { kbT := 2
    vs_mask := [1, 0]
    error_handling := ErrorHandling.LogWarning
    engine := fun _ _ => Except.ok (4, [6, 8])
    ctxBox := fun _ _ => 0
    garbage := fun _ => (0, []) }

/-- Oracle used by the virtual-site-zeroing witness: mask zero at coordinate 1. -/
def mC6 : OpenMMEnergyModel :=
  { kbT := 1
    vs_mask := [1, 0, 1]
    error_handling := ErrorHandling.Nothing
    engine := fun _ _ => Except.ok (2, [5, 6, 7])
    ctxBox := fun _ _ => 0
    garbage := fun _ => (0, [0, 0, 0]) }

/-- Oracle used by the batch/scalar-equivalence witness: always succeeds,
energy is the first coordinate, raw force doubles every coordinate. -/
def mC8 : OpenMMEnergyModel :=
  { kbT := 2
    vs_mask := [1, 0]
    error_handling := ErrorHandling.LogWarning
    engine := fun p _ => Except.ok (p.headD 0, p.map (fun x => x + x))
    ctxBox := fun _ _ => 0
    garbage := fun _ => (9, [9, 9]) }

/-! ### density.py: the analytic world over ℝ -/

noncomputable section

/-- A 3-vector of reals. -/
abbrev R3 := Fin 3 → ℝ

/-- A quaternion as a 4-vector of reals. -/
abbrev R4 := Fin 4 → ℝ

/-- system.py lines 22-38: SimulationBox with corners max and min, min
defaulting to the origin. -/
structure SimulationBox where
  max : R3
  min : R3 := fun _ => 0

/-- SimulationBox.size = max - min (system.py lines 36-38). -/
def SimulationBox.size (b : SimulationBox) : R3 := fun i => b.max i - b.min i

/-- Modelled from the spec: the State record of rigid_flows/flow.py (not under
src/), described in section 3 of the specification: a rotation quaternion per
molecule, a position per molecule, a fixed triple of internal coordinates, an
auxiliary latent vector, and a SimulationBox. -/
structure State where
  rot : List R4
  pos : List R3
  ics : List ℝ × List ℝ × List ℝ
  aux : List ℝ
  box : SimulationBox

/-- Modelled from the spec: the AugmentedData record of rigid_flows/data.py
(not under src/), described in section 3 of the specification: atomic
positions (rational, as fed to the engine), auxiliary latent vector,
per-molecule sign vector, SimulationBox, optional recorded force. -/
structure AugmentedData where
  pos : List ℚ
  aux : List ℝ
  sign : List ℝ
  box : SimulationBox
  force : Option (List ℚ)

/-- Modelled from the spec: the Data record of rigid_flows/data.py (not under
src/); the fields density.py reads are the arrays of stored positions, stored
boxes and optional stored forces, indexed by sample. -/
structure Data where
  pos : List (List ℚ)
  box : List R3
  force : Option (List (List ℚ))

/-- The Transformed pair of the external flox library: a payload together
with the log-density value reported for it. -/
structure Transformed (α : Type) where
  obj : α
  ldj : ℝ

/-- Sum of f over a list together with the running index, modelling the .sum()
of an elementwise log_prob over a batched distribution whose parameters vary
with the index. -/
def sumIdx {α : Type} (f : ℕ → α → ℝ) : ℕ → List α → ℝ
  | _, [] => 0
  | i, x :: xs => f i x + sumIdx f (i + 1) xs

/-- log-sum-exp of two scalars, the mathematical value of
jax.nn.logsumexp(jnp.stack([a, b]), axis=0) at one position. -/
def lse (a b : ℝ) : ℝ := Real.log (Real.exp a + Real.exp b)

/-- Quaternion negation, -inp.rot at one molecule. -/
def neg4 (q : R4) : R4 := fun j => -q j

/-- Abstract model of the key chain drawn from flox.util.key_chain: the i-th
key split off the root key.  Only injectivity in i matters to the embedding;
no claim depends on the actual PRNG values. -/
def keyChain (key i : ℕ) : ℕ := key + i

/-- density.py lines 41-57: BaseDensity.  The three tensorflow-probability
distributions built in the constructor (VonMisesFisher over rotations, Normal
over positions, Normal over auxiliaries) are external library objects; they
enter the source only through their log_prob and sample members, which are
therefore the abstract fields here.  Indexing is per molecule (the
distributions are batched over molecules with per-molecule parameters); the
per-molecule log_prob already sums the inner event dimensions. -/
structure BaseDensity where
  box : SimulationBox
  rotLogProb : ℕ → R4 → ℝ
  rotSample : ℕ → List R4
  posLogProb : ℕ → R3 → ℝ
  posSample : ℕ → List R3
  auxLogProb : ℕ → ℝ → ℝ
  auxSample : ℕ → List ℝ
  signSample : ℕ → List ℝ

/-- BaseDensity.potential (density.py lines 59-80): the rotation term
symmetrizes the directional log-density over the quaternion double cover by a
log-sum-exp at rot and -rot (lines 69-77), the position and auxiliary terms
are summed log-densities, and the returned potential is the negated total. -/
def BaseDensity.potential (d : BaseDensity) (s : State) : ℝ :=
  -(sumIdx (fun i q => lse (d.rotLogProb i q) (d.rotLogProb i (neg4 q))) 0 s.rot
    + sumIdx d.auxLogProb 0 s.aux
    + sumIdx d.posLogProb 0 s.pos)

/-- BaseDensity.sample (density.py lines 82-107): draw rotations, flip each
molecule by an independently drawn sign, draw positions, set the three
internal coordinates to the fixed reference values, draw auxiliaries, build
the State and return it together with its recomputed potential. -/
def BaseDensity.sample (d : BaseDensity) (key : ℕ) : Transformed State :=
  let rot0 := d.rotSample (keyChain key 0)
  let rot := List.zipWith (fun s q => fun j => s * q j)
    (d.signSample (keyChain key 1)) rot0
  let pos := d.posSample (keyChain key 2)
  let ics := (List.replicate pos.length (0.09572 : ℝ),
    List.replicate pos.length (0.09572 : ℝ),
    List.replicate pos.length (1.824218 : ℝ))
  let aux := d.auxSample (keyChain key 3)
  let state : State := ⟨rot, pos, ics, aux, d.box⟩
  ⟨state, BaseDensity.potential d state⟩

/-! ### density.py: cutoff_potential -/

/-- The 1e-12 regulariser added under both square roots in cutoff_potential
(density.py lines 139 and 142). -/
def cutEps : ℝ := 1e-12

/-- Sum of squares of a vector: jnp.sum(jnp.square(v)). -/
def normSq {n : ℕ} (v : Fin n → ℝ) : ℝ := ∑ i, v i ^ 2

/-- Euclidean norm of a vector (used to state the specification claims about
gradient magnitudes). -/
def euclNorm {n : ℕ} (v : Fin n → ℝ) : ℝ := Real.sqrt (normSq v)

/-- eval_fwd of cutoff_potential (density.py lines 137-147).  The wrapped
potential is an arbitrary differentiable scalar function; since the source
obtains its gradient from jax.value_and_grad, the potential and its gradient
enter the embedding as a pair of functions (P, gradP).  In the source:
  - original, grad   = value_and_grad(potential)(inp)            (line 138)
  - gnorm            = sqrt(1e-12 + sum(square(grad)))           (line 139)
  - approx           = 0.5 * sum(square(inp - reference))        (lines 134-135, 141)
  - grad_approx      = inp - reference (exact gradient of approx, line 141)
  - gnorm_approx     = sqrt(1e-12 + sum(square(grad_approx)))    (line 142)
  - grad_approx      = grad_approx / gnorm_approx * threshold    (line 143)
  - out  = where(gnorm > threshold, approx, original)            (line 145)
  - grad = where(gnorm > threshold, grad_approx, grad)           (line 146)
The pair returned is (out, grad); grad is the residual that eval_bwd later
multiplies by the upstream cotangent. -/
def cutoffFwd {n : ℕ} (P : (Fin n → ℝ) → ℝ) (gradP : (Fin n → ℝ) → Fin n → ℝ)
    (reference : Fin n → ℝ) (threshold : ℝ) (inp : Fin n → ℝ) :
    ℝ × (Fin n → ℝ) :=
  (if Real.sqrt (cutEps + normSq (gradP inp)) > threshold
    then 0.5 * normSq (fun i => inp i - reference i)
    else P inp,
   if Real.sqrt (cutEps + normSq (gradP inp)) > threshold
    then fun i => (inp i - reference i)
      / Real.sqrt (cutEps + normSq (fun j => inp j - reference j)) * threshold
    else gradP inp)

/-- eval_bwd of cutoff_potential (density.py lines 149-150): the residual
gradient times the upstream cotangent, elementwise. -/
def cutoffBwd {n : ℕ} (gInp : Fin n → ℝ) (gOut : ℝ) : Fin n → ℝ :=
  fun i => gOut * gInp i

/-! ### density.py: TargetDensity -/

/-- density.py lines 166-181: TargetDensity.  The auxiliary Normal
distribution is external library code, abstracted to its per-entry log_prob;
the oracle is the rational-world OpenMMEnergyModel above. -/
structure TargetDensity where
  auxLogProb : ℕ → ℝ → ℝ
  model : OpenMMEnergyModel
  data : Option Data
  cutoff : Option ℝ

/-- The box property of TargetDensity (density.py lines 183-187): raise
ValueError when no data is attached, otherwise build a SimulationBox from the
first stored box (indexing an empty array would raise IndexError).  The
property reads the density and mutates nothing, which the embedding reflects
by being a pure function of the density. -/
def TargetDensity.box (t : TargetDensity) : Except PyErr SimulationBox :=
  match t.data with
  | none => Except.error PyErr.dataNotLoaded
  | some d =>
    match d.box with
    | [] => Except.error PyErr.indexOutOfRange
    | b :: _ => Except.ok { max := b }

/-- CPython semantics of functools: constructing a partial application checks
that the first argument is callable and raises TypeError otherwise.  A Python
tuple is not callable, so applied to a pair this constructor can only raise;
the success type is therefore Empty.  The keyword arguments box and
has_batch_dim that the call site supplies are recorded but never used. -/
def functoolsPartialPair {α β : Type} (_p : α × β) (_boxKw : R3)
    (_hasBatchDimKw : Bool) : Except PyErr Empty :=
  Except.error PyErr.typeErrorNotCallable

/-- TargetDensity.potential (density.py lines 189-211).  Line 199 sums the
auxiliary log-density; lines 200-204 build
  energy = partial(wrap_openmm_model(self.model), box=inp.box.size,
                   has_batch_dim=False)
whose first argument is the PAIR returned by wrap_openmm_model (system.py line
198), so functools raises TypeError here and the remaining lines (the cutoff
wrapping at 205-209 and the evaluation and -aux_prob + pot at 210-211) are
unreachable. -/
def TargetDensity.potential (t : TargetDensity) (inp : AugmentedData) :
    Except PyErr ℝ :=
  let _auxProb := sumIdx t.auxLogProb 0 inp.aux
  match functoolsPartialPair (wrapOpenmmModel t.model)
      (SimulationBox.size inp.box) false with
  | Except.error e => Except.error e
  | Except.ok impossible => nomatch impossible

/-! ### Concrete density instances used by the closed theorems -/

/-- A dummy oracle for density-level witnesses whose claims never query the
engine. -/
def mDummy : OpenMMEnergyModel :=
  { kbT := 1
    vs_mask := []
    error_handling := ErrorHandling.LogWarning
    engine := fun _ _ => Except.error (PyErr.engineFailure 0)
    ctxBox := fun _ _ => 0
    garbage := fun _ => (0, []) }

/-- A one-sample dataset whose stored box is the all-ones corner. -/
def dataW : Data := { pos := [[1]], box := [fun _ => 1], force := none }

/-- Target density with no data attached. -/
def tNone : TargetDensity :=
  { auxLogProb := fun _ _ => 0, model := mDummy, data := none, cutoff := none }

/-- Target density with the one-sample dataset attached. -/
def tSome : TargetDensity :=
  { auxLogProb := fun _ _ => 0, model := mDummy, data := some dataW,
    cutoff := none }

end

/-! ### Helper lemmas for the oracle world -/

/-- Entrywise description of the masked force rows. -/
lemma getD_zipWith_mul (f g : List ℚ) (j : ℕ) :
    (List.zipWith (fun a b => a * b) f g).getD j 0
      = f.getD j 0 * g.getD j 0 := by
  induction f generalizing g j with
  | nil => simp
  | cons a f ih =>
    cases g with
    | nil => simp
    | cons b g =>
      cases j with
      | zero => simp [List.getD]
      | succ j => simpa [List.getD] using ih g j

/-- When the engine succeeds on every sample of the batch, the loop returns
exactly the per-sample results in input order, with no diagnostics. -/
lemma cefLoop_all_ok (m : OpenMMEnergyModel) (effBox : BoxM) :
    ∀ (l : List (List ℚ)) (i : ℕ),
      (∀ c ∈ l, ∃ r, m.engine c effBox = Except.ok r) →
      cefLoop m effBox i l =
        Except.ok (l.map (perConfigEnergy m effBox),
          l.map (perConfigForce m effBox), [])
  | [], _, _ => rfl
  | c :: rest, i, h => by
    obtain ⟨⟨e, f⟩, hc⟩ := h c (by simp)
    have ihh := cefLoop_all_ok m effBox rest (i + 1)
      (fun d hd => h d (by simp [hd]))
    simp [cefLoop, hc, ihh, perConfigEnergy, perConfigForce]

/-- Every force row an ok run returns was multiplied by the virtual-site
mask, on the success path and on the continue-after-failure paths alike. -/
lemma cefLoop_forces_masked (m : OpenMMEnergyModel) (effBox : BoxM) :
    ∀ (l : List (List ℚ)) (i : ℕ) es fs ws,
      cefLoop m effBox i l = Except.ok (es, fs, ws) →
      ∀ f ∈ fs, ∃ raw, f = applyMask m.vs_mask raw
  | [], i, es, fs, ws, h => by
    simp only [cefLoop] at h
    cases h
    simp
  | c :: rest, i, es, fs, ws, h => by
    simp only [cefLoop] at h
    cases hc : m.engine c effBox with
    | ok ef =>
      rw [hc] at h
      cases hr : cefLoop m effBox (i + 1) rest with
      | ok r =>
        obtain ⟨es1, fs1, ws1⟩ := r
        rw [hr] at h
        cases h
        intro f hf
        rcases List.mem_cons.mp hf with hhead | htail
        · exact ⟨_, hhead⟩
        · exact cefLoop_forces_masked m effBox rest (i + 1) _ _ _ hr f htail
      | error err => rw [hr] at h; exact absurd h (by simp)
    | error msg =>
      rw [hc] at h
      cases hpol : m.error_handling with
      | RaiseException => rw [hpol] at h; exact absurd h (by simp)
      | LogWarning =>
        rw [hpol] at h
        cases hr : cefLoop m effBox (i + 1) rest with
        | ok r =>
          obtain ⟨es1, fs1, ws1⟩ := r
          rw [hr] at h
          cases h
          intro f hf
          rcases List.mem_cons.mp hf with hhead | htail
          · exact ⟨_, hhead⟩
          · exact cefLoop_forces_masked m effBox rest (i + 1) _ _ _ hr f htail
        | error err => rw [hr] at h; exact absurd h (by simp)
      | Nothing =>
        rw [hpol] at h
        cases hr : cefLoop m effBox (i + 1) rest with
        | ok r =>
          obtain ⟨es1, fs1, ws1⟩ := r
          rw [hr] at h
          cases h
          intro f hf
          rcases List.mem_cons.mp hf with hhead | htail
          · exact ⟨_, hhead⟩
          · exact cefLoop_forces_masked m effBox rest (i + 1) _ _ _ hr f htail
        | error err => rw [hr] at h; exact absurd h (by simp)

/-! ### Claim C1 -/

/-- Claim C1 (code_bug evaluation): a 3-sample batch whose middle sample fails
engine evaluation, submitted with the explicit per-call override
RaiseException to an oracle constructed with the silent policy.  The claim
requires the call to re-throw and abort the batch; the code instead returns a
full ok result (with the uninitialized-buffer contents for the failed sample
and no diagnostic), identical to the call without any override, because line
125 of system.py dispatches on self.error_handling and never consults the
resolved override. -/
theorem error_policy_override_ignored :
    computeEnergiesAndForces mC1 [[1,1,1],[9,9,9],[2,2,2]] none
        (some ErrorHandling.RaiseException)
      = Except.ok ([1, 7, 1], [[0,0,0],[7,7,7],[0,0,0]], [])
    ∧ computeEnergiesAndForces mC1 [[1,1,1],[9,9,9],[2,2,2]] none
        (some ErrorHandling.RaiseException)
      = computeEnergiesAndForces mC1 [[1,1,1],[9,9,9],[2,2,2]] none none := by
  constructor
  · norm_num [computeEnergiesAndForces, cefLoop, mC1, applyMask]
  · rfl

/-! ### Claim C5 -/

/-- Claim C5: for every positions input and upstream cotangent g, the vjp of
the bridge eval returns -g times the force array the oracle reported for that
configuration (raw engine force divided by kbT, then virtual-site masked). -/
theorem bridge_backward_is_neg_force (m : OpenMMEnergyModel) (pos : List ℚ)
    (box : Option Vec3Q) (g eRaw : ℚ) (fRaw : List ℚ)
    (h : m.engine pos ((box.map diagQ).getD m.ctxBox) = Except.ok (eRaw, fRaw)) :
    evalVjp m pos box g =
      Except.ok ((applyMask m.vs_mask (fRaw.map (fun y => y / m.kbT))).map
        (fun y => -(g * y))) := by
  have h1 := cefLoop_all_ok m ((box.map diagQ).getD m.ctxBox) [pos] 0
    (by intro d hd; simp at hd; subst hd; exact ⟨(eRaw, fRaw), h⟩)
  simp [evalVjp, evalFwd, wrapComputeSingle, computeEnergiesAndForces, h1,
    evalBwd, perConfigForce, h, Except.map]

/-- Witness for C5: with kbT = 2, mask [1, 0], raw force [6, 8] and upstream
cotangent 3, the vjp is -3 * [3, 0] = [-9, 0]. -/
theorem bridge_backward_is_neg_force_witness :
    evalVjp mC5 [1, 2] none 3 = Except.ok ([-9, 0]) := by
  have h := bridge_backward_is_neg_force mC5 [1, 2] none 3 4 [6, 8] rfl
  refine h.trans ?_
  norm_num [applyMask, mC5]

/-! ### Claim C6 -/

/-- Claim C6: whatever values the engine reports (and also for samples whose
evaluation failed and was continued past), every force entry returned at a
coordinate where the virtual-site mask is zero is exactly zero; the masking
multiplies the already-kbT-divided force. -/
theorem virtual_site_forces_zeroed (m : OpenMMEnergyModel)
    (pos : List (List ℚ)) (box : Option BoxM) (eh : Option ErrorHandling)
    (es : List ℚ) (fs : List (List ℚ)) (ws : List PyErr) (j : ℕ)
    (hok : computeEnergiesAndForces m pos box eh = Except.ok (es, fs, ws))
    (hmask : m.vs_mask.getD j 0 = 0) :
    ∀ f ∈ fs, f.getD j 0 = 0 := by
  intro f hf
  obtain ⟨raw, rfl⟩ := cefLoop_forces_masked m _ pos 0 es fs ws
    (by simpa [computeEnergiesAndForces] using hok) f hf
  simp only [applyMask]
  rw [getD_zipWith_mul, hmask, mul_zero]

/-- Witness for C6: a concrete run with mask [1, 0, 1]; the returned force at
coordinate 1 is zero even though the raw engine force there is 6. -/
theorem virtual_site_forces_zeroed_witness :
    computeEnergiesAndForces mC6 [[1,2,3]] none none
      = Except.ok ([2], [[5, 0, 7]], [])
    ∧ ([5, 0, 7] : List ℚ).getD 1 0 = 0 := by
  have hok : computeEnergiesAndForces mC6 [[1,2,3]] none none
      = Except.ok ([2], [[5, 0, 7]], []) := by
    norm_num [computeEnergiesAndForces, cefLoop, mC6, applyMask]
  refine ⟨hok, ?_⟩
  exact virtual_site_forces_zeroed mC6 [[1,2,3]] none none [2] [[5, 0, 7]] []
    1 hok (by norm_num [mC6]) [5, 0, 7] (by simp)

/-! ### Claim C8 -/

/-- Claim C8: for a batch every sample of which evaluates successfully, the
batched bridge call returns exactly the per-configuration results, in input
order, and the single-configuration bridge call on each member returns that
same per-configuration result - so the batch equals the concatenation of the
individual evaluations. -/
theorem batch_scalar_equivalence (m : OpenMMEnergyModel)
    (batch : List (List ℚ)) (box : Option Vec3Q)
    (h : ∀ c ∈ batch, ∃ r, m.engine c ((box.map diagQ).getD m.ctxBox)
      = Except.ok r) :
    wrapComputeBatch m batch box =
      Except.ok (batch.map (perConfigEnergy m ((box.map diagQ).getD m.ctxBox)),
        batch.map (perConfigForce m ((box.map diagQ).getD m.ctxBox)))
    ∧ ∀ c ∈ batch, wrapComputeSingle m c box =
        Except.ok (perConfigEnergy m ((box.map diagQ).getD m.ctxBox) c,
          perConfigForce m ((box.map diagQ).getD m.ctxBox) c) := by
  constructor
  · have h1 := cefLoop_all_ok m ((box.map diagQ).getD m.ctxBox) batch 0 h
    simp [wrapComputeBatch, computeEnergiesAndForces, h1]
  · intro c hc
    have h1 := cefLoop_all_ok m ((box.map diagQ).getD m.ctxBox) [c] 0
      (by intro d hd; simp at hd; subst hd; exact h _ hc)
    simp [wrapComputeSingle, computeEnergiesAndForces, h1]

/-- Witness for C8: a concrete always-succeeding engine; the batched call
returns the two per-sample results in order and the single call on the first
sample reproduces its entry. -/
theorem batch_scalar_equivalence_witness :
    wrapComputeBatch mC8 [[1, 2], [3, 4]] none
      = Except.ok ([1/2, 3/2], [[1, 0], [3, 0]])
    ∧ wrapComputeSingle mC8 [1, 2] none = Except.ok (1/2, [1, 0]) := by
  have h := batch_scalar_equivalence mC8 [[1, 2], [3, 4]] none
    (by intro c hc; exact ⟨_, rfl⟩)
  constructor
  · refine h.1.trans ?_
    norm_num [perConfigEnergy, perConfigForce, mC8, applyMask]
  · refine (h.2 [1, 2] (by simp)).trans ?_
    norm_num [perConfigEnergy, perConfigForce, mC8, applyMask]

/-! ### Helper lemmas for the analytic world -/

/-- log-sum-exp of two scalars is symmetric. -/
lemma lse_comm (a b : ℝ) : lse a b = lse b a := by
  simp [lse, add_comm]

/-- Negating a quaternion twice gives it back. -/
lemma neg4_neg4 (q : R4) : neg4 (neg4 q) = q := by
  funext j
  simp [neg4]

/-- The symmetrized rotation term is invariant under negating every
quaternion, whatever the per-molecule directional log-density is. -/
lemma sumIdx_lse_neg (p : ℕ → R4 → ℝ) :
    ∀ (l : List R4) (i : ℕ),
      sumIdx (fun k q => lse (p k q) (p k (neg4 q))) i (l.map neg4)
        = sumIdx (fun k q => lse (p k q) (p k (neg4 q))) i l
  | [], _ => rfl
  | q :: l, i => by
    simp only [List.map_cons, sumIdx, neg4_neg4, sumIdx_lse_neg p l (i + 1)]
    rw [lse_comm]

/-! ### Claim C7 -/

/-- Claim C7: the base potential is exactly invariant under negating the
rotation quaternions of the state, because the rotation term symmetrizes the
directional log-density over the double cover by a log-sum-exp at rot and
-rot. -/
theorem base_potential_double_cover (d : BaseDensity) (s : State) :
    BaseDensity.potential d { s with rot := s.rot.map neg4 }
      = BaseDensity.potential d s := by
  simp [BaseDensity.potential, sumIdx_lse_neg]

/-! ### Claim C9 -/

/-- Claim C9: the log-density returned by BaseDensity.sample is exactly the
potential of the returned state, for every key - the source recomputes the
potential of the assembled state and stores it in the returned pair. -/
theorem base_sample_logdensity_consistent (d : BaseDensity) (key : ℕ) :
    (BaseDensity.sample d key).ldj
      = BaseDensity.potential d (BaseDensity.sample d key).obj := rfl

/-! ### Claim C2 -/

/-- Claim C2 (code_bug evaluation): for every target density and every input,
TargetDensity.potential raises TypeError instead of returning the claimed
scalar: line 200 of density.py passes the PAIR returned by wrap_openmm_model
(system.py line 198) as the first argument of a functools partial
application, and a tuple is not callable. -/
theorem target_potential_type_error (t : TargetDensity) (inp : AugmentedData) :
    TargetDensity.potential t inp = Except.error PyErr.typeErrorNotCallable := rfl

/-! ### Claim C10 -/

/-- Claim C10: accessing the box property fails with the data-not-loaded
error exactly when no dataset is attached, and with a dataset attached whose
box array is nonempty it returns the SimulationBox built from the first
stored box (minimum corner defaulting to the origin).  The embedding is a
pure function of the density, reflecting that the source property only reads
the density. -/
theorem target_box_access (t : TargetDensity) :
    (t.data = none → TargetDensity.box t = Except.error PyErr.dataNotLoaded)
    ∧ (∀ d b rest, t.data = some d → d.box = b :: rest →
        TargetDensity.box t = Except.ok { max := b, min := fun _ => 0 }) := by
  constructor
  · intro h
    simp [TargetDensity.box, h]
  · intro d b rest hd hb
    simp [TargetDensity.box, hd, hb]

/-- Witness for C10: the two concrete target densities, one with no data and
one with a one-sample dataset whose first stored box is the all-ones corner. -/
theorem target_box_access_witness :
    TargetDensity.box tNone = Except.error PyErr.dataNotLoaded
    ∧ TargetDensity.box tSome
      = Except.ok { max := fun _ => (1 : ℝ), min := fun _ => 0 } :=
  ⟨(target_box_access tNone).1 rfl,
   (target_box_access tSome).2 dataW (fun _ => 1) [] rfl rfl⟩

/-! ### Helper lemmas for the cutoff potential -/

/-- The regulariser is positive. -/
lemma cutEps_pos : 0 < cutEps := by norm_num [cutEps]

/-- A sum of squares is nonnegative. -/
lemma normSq_nonneg {n : ℕ} (v : Fin n → ℝ) : 0 ≤ normSq v :=
  Finset.sum_nonneg fun i _ => sq_nonneg (v i)

/-- Sum of squares of a constant one-dimensional vector. -/
lemma normSq_fin1 (c : ℝ) : normSq (fun _ : Fin 1 => c) = c ^ 2 := by
  simp [normSq, Fin.sum_univ_one]

/-- The square root of four. -/
lemma sqrt_four : Real.sqrt 4 = 2 := by
  rw [show (4 : ℝ) = 2 ^ 2 by norm_num, Real.sqrt_sq (by norm_num : (0:ℝ) ≤ 2)]

/-- Scaling a vector by a nonnegative scalar scales its euclidean norm. -/
lemma euclNorm_rescale {n : ℕ} (d : Fin n → ℝ) (s : ℝ) (hs : 0 ≤ s) :
    euclNorm (fun i => d i * s) = s * euclNorm d := by
  have h1 : normSq (fun i => d i * s) = normSq d * s ^ 2 := by
    simp only [normSq, mul_pow]
    rw [← Finset.sum_mul]
  rw [euclNorm, h1, Real.sqrt_mul (normSq_nonneg d), Real.sqrt_sq hs,
    euclNorm, mul_comm]

/-! ### Claim C4 -/

/-- Claim C4 counterexample: take the one-dimensional potential P x = x with
constant gradient 1, threshold 1, reference 0 and evaluation point 3.  The
true gradient norm is 1 ≤ 1, so the claim demands the original value P 3 = 3
back; but the code branches on sqrt(1e-12 + 1) > 1, which holds, so it
returns the quadratic surrogate value 4.5 instead. -/
theorem cutoff_below_threshold_not_exact_cex :
    euclNorm (fun _ : Fin 1 => (1 : ℝ)) ≤ 1
    ∧ (cutoffFwd (fun x : Fin 1 → ℝ => x 0) (fun _ _ => 1) (fun _ => 0) 1
        (fun _ => 3)).1 ≠ 3 := by
  constructor
  · rw [euclNorm, normSq_fin1, one_pow, Real.sqrt_one]
  · have hb : Real.sqrt (cutEps + normSq (fun _ : Fin 1 => (1:ℝ))) > 1 := by
      rw [normSq_fin1, one_pow]
      have h2 : Real.sqrt 1 < Real.sqrt (cutEps + 1) :=
        Real.sqrt_lt_sqrt (by norm_num) (by norm_num [cutEps])
      rwa [Real.sqrt_one] at h2
    simp only [cutoffFwd]
    rw [if_pos hb]
    have h9 : normSq (fun i : Fin 1 =>
        (fun _ : Fin 1 => (3:ℝ)) i - (fun _ : Fin 1 => (0:ℝ)) i) = 9 := by
      simp [normSq, Fin.sum_univ_one]
      norm_num
    rw [h9]
    norm_num

/-- Claim C4 (amended): exactness of value and gradient below the threshold
holds for the regularised gradient norm the code actually tests, i.e. at
every point where sqrt(1e-12 + the squared gradient norm) is at most the
threshold the wrapped potential returns exactly the original value and
exactly the original gradient. -/
theorem cutoff_exact_below_reg_threshold {n : ℕ} (P : (Fin n → ℝ) → ℝ)
    (gradP : (Fin n → ℝ) → Fin n → ℝ) (reference : Fin n → ℝ)
    (threshold : ℝ) (inp : Fin n → ℝ)
    (h : Real.sqrt (cutEps + normSq (gradP inp)) ≤ threshold) :
    (cutoffFwd P gradP reference threshold inp).1 = P inp
    ∧ (cutoffFwd P gradP reference threshold inp).2 = gradP inp := by
  have hcond : ¬ (Real.sqrt (cutEps + normSq (gradP inp)) > threshold) :=
    not_lt.mpr h
  constructor
  · simp only [cutoffFwd]
    rw [if_neg hcond]
  · simp only [cutoffFwd]
    rw [if_neg hcond]

/-- Witness for the amended C4: the zero potential with zero gradient at
threshold 1; sqrt(1e-12) is at most 1, so value and gradient are returned
unchanged. -/
theorem cutoff_exact_below_reg_threshold_witness :
    (cutoffFwd (fun _ : Fin 1 → ℝ => (0:ℝ)) (fun _ _ => 0) (fun _ => 0) 1
      (fun _ => 0)).1 = 0
    ∧ (cutoffFwd (fun _ : Fin 1 → ℝ => (0:ℝ)) (fun _ _ => 0) (fun _ => 0) 1
      (fun _ => 0)).2 = fun _ => 0 := by
  have hs : Real.sqrt (cutEps + normSq (fun _ : Fin 1 => (0:ℝ))) ≤ 1 := by
    rw [normSq_fin1, show ((0:ℝ) ^ 2) = 0 by norm_num, add_zero]
    calc Real.sqrt cutEps ≤ Real.sqrt 1 :=
          Real.sqrt_le_sqrt (by norm_num [cutEps])
      _ = 1 := Real.sqrt_one
  exact cutoff_exact_below_reg_threshold _ _ _ _ _ hs

/-! ### Claim C3 -/

/-- Claim C3 counterexample: the one-dimensional potential P x = 2 x with
constant gradient 2, threshold 1, reference 0, evaluated at 1.  The true
gradient norm is 2 > 1, so the claim demands the returned gradient to have
norm exactly 1; but the code rescales the surrogate gradient by
1 / sqrt(1e-12 + 1), giving norm 1 / sqrt(1 + 1e-12), strictly below 1. -/
theorem cutoff_grad_norm_not_exact_cex :
    1 < euclNorm (fun _ : Fin 1 => (2 : ℝ))
    ∧ euclNorm ((cutoffFwd (fun x : Fin 1 → ℝ => 2 * x 0) (fun _ _ => 2)
        (fun _ => 0) 1 (fun _ => 1)).2) ≠ 1 := by
  constructor
  · rw [euclNorm, normSq_fin1, show ((2:ℝ) ^ 2) = 4 by norm_num, sqrt_four]
    norm_num
  · have hb : Real.sqrt (cutEps + normSq (fun _ : Fin 1 => (2:ℝ))) > 1 := by
      rw [normSq_fin1, show ((2:ℝ) ^ 2) = 4 by norm_num]
      have h2 : Real.sqrt 4 ≤ Real.sqrt (cutEps + 4) :=
        Real.sqrt_le_sqrt (by norm_num [cutEps])
      rw [sqrt_four] at h2
      linarith
    have hval : (cutoffFwd (fun x : Fin 1 → ℝ => 2 * x 0) (fun _ _ => 2)
        (fun _ => 0) 1 (fun _ => 1)).2
        = fun _ : Fin 1 => 1 / Real.sqrt (cutEps + 1) := by
      simp only [cutoffFwd]
      rw [if_pos hb]
      funext i
      have h1 : normSq (fun j : Fin 1 =>
          (fun _ : Fin 1 => (1:ℝ)) j - (fun _ : Fin 1 => (0:ℝ)) j) = 1 := by
        simp [normSq, Fin.sum_univ_one]
      rw [h1]
      norm_num
    rw [hval]
    have hc1 : (1:ℝ) < Real.sqrt (cutEps + 1) := by
      have h2 := Real.sqrt_lt_sqrt (by norm_num : (0:ℝ) ≤ 1)
        (by norm_num [cutEps] : (1:ℝ) < cutEps + 1)
      rwa [Real.sqrt_one] at h2
    have hpos : (0:ℝ) < Real.sqrt (cutEps + 1) := lt_trans one_pos hc1
    have hn : euclNorm (fun _ : Fin 1 => 1 / Real.sqrt (cutEps + 1))
        = 1 / Real.sqrt (cutEps + 1) := by
      rw [euclNorm, normSq_fin1, Real.sqrt_sq (by positivity)]
    rw [hn]
    have hlt1 : 1 / Real.sqrt (cutEps + 1) < 1 := by
      rw [div_lt_one hpos]
      exact hc1
    exact ne_of_lt hlt1

/-- Claim C3 (amended): above the threshold the returned gradient is the
surrogate gradient inp - reference rescaled by threshold / sqrt(1e-12 + its
squared norm); its norm therefore equals threshold times the ratio
norm / sqrt(1e-12 + norm squared), which for a positive threshold is
strictly BELOW the threshold, not exactly equal to it. -/
theorem cutoff_above_threshold_grad_norm {n : ℕ} (P : (Fin n → ℝ) → ℝ)
    (gradP : (Fin n → ℝ) → Fin n → ℝ) (reference : Fin n → ℝ)
    (threshold : ℝ) (inp : Fin n → ℝ)
    (ht : 0 ≤ threshold) (h : threshold < euclNorm (gradP inp)) :
    (cutoffFwd P gradP reference threshold inp).2
      = (fun i => (inp i - reference i)
          / Real.sqrt (cutEps + normSq (fun j => inp j - reference j))
          * threshold)
    ∧ euclNorm (cutoffFwd P gradP reference threshold inp).2
      = threshold / Real.sqrt (cutEps + normSq (fun j => inp j - reference j))
          * euclNorm (fun j => inp j - reference j)
    ∧ (0 < threshold →
        euclNorm (cutoffFwd P gradP reference threshold inp).2 < threshold) := by
  have hb : Real.sqrt (cutEps + normSq (gradP inp)) > threshold := by
    refine lt_of_lt_of_le h ?_
    rw [euclNorm]
    exact Real.sqrt_le_sqrt (le_add_of_nonneg_left (le_of_lt cutEps_pos))
  have hc : 0 < Real.sqrt (cutEps + normSq (fun j => inp j - reference j)) :=
    Real.sqrt_pos.mpr (add_pos_of_pos_of_nonneg cutEps_pos (normSq_nonneg _))
  have hgrad : (cutoffFwd P gradP reference threshold inp).2
      = fun i => (inp i - reference i)
        / Real.sqrt (cutEps + normSq (fun j => inp j - reference j))
        * threshold := by
    simp only [cutoffFwd]
    rw [if_pos hb]
  have hnorm : euclNorm (cutoffFwd P gradP reference threshold inp).2
      = threshold / Real.sqrt (cutEps + normSq (fun j => inp j - reference j))
        * euclNorm (fun j => inp j - reference j) := by
    rw [hgrad]
    have hre : (fun i => (inp i - reference i)
        / Real.sqrt (cutEps + normSq (fun j => inp j - reference j)) * threshold)
        = fun i => (inp i - reference i) * (threshold
          / Real.sqrt (cutEps + normSq (fun j => inp j - reference j))) := by
      funext i
      ring
    rw [hre, euclNorm_rescale _ _ (div_nonneg ht hc.le)]
  refine ⟨hgrad, hnorm, ?_⟩
  intro htpos
  rw [hnorm]
  have hSlt : euclNorm (fun j => inp j - reference j)
      < Real.sqrt (cutEps + normSq (fun j => inp j - reference j)) := by
    rw [euclNorm]
    exact Real.sqrt_lt_sqrt (normSq_nonneg _) (lt_add_of_pos_left _ cutEps_pos)
  have h2 := mul_lt_mul_of_pos_left hSlt (div_pos htpos hc)
  rwa [div_mul_cancel₀ threshold hc.ne'] at h2

/-- Witness for the amended C3: the counterexample configuration; the
returned gradient is 1 / sqrt(1e-12 + 1), exactly the rescaled surrogate. -/
theorem cutoff_above_threshold_grad_norm_witness :
    (cutoffFwd (fun x : Fin 1 → ℝ => 2 * x 0) (fun _ _ => 2) (fun _ => 0) 1
        (fun _ => 1)).2
      = fun _ : Fin 1 => 1 / Real.sqrt (cutEps + 1) := by
  have hlt : (1:ℝ) < euclNorm (fun _ : Fin 1 => (2:ℝ)) := by
    rw [euclNorm, normSq_fin1, show ((2:ℝ) ^ 2) = 4 by norm_num, sqrt_four]
    norm_num
  have h := (cutoff_above_threshold_grad_norm (fun x : Fin 1 → ℝ => 2 * x 0)
    (fun _ _ => 2) (fun _ => 0) 1 (fun _ => 1) (by norm_num) hlt).1
  rw [h]
  funext i
  have h1 : normSq (fun j : Fin 1 =>
      (fun _ : Fin 1 => (1:ℝ)) j - (fun _ : Fin 1 => (0:ℝ)) j) = 1 := by
    simp [normSq, Fin.sum_univ_one]
  rw [h1]
  norm_num
